import Mathlib

/-
  Verification of the portfolio valuation and market-data layer of the
  coin-cost repository (a client-side cryptocurrency cost-basis tracker).

  The JavaScript sources are embedded shallowly:
  * numbers are exact rationals (ℚ); the IEEE-754 special values NaN and
    ±Infinity, which the valuation code can produce through division by a
    zero holdings value, are modelled explicitly by the type `JSNum`
    (rounding of binary doubles is abstracted away: the claims under test
    concern the algebra of the algorithms, not rounding error);
  * JSON-borne data (transactions, coins) is plain records; a field that
    may be absent in a payload is an `Option`;
  * asynchronous code is modelled as sequential state passing; network
    responses are supplied through explicit environment records.
-/

namespace CoinCost

/-- Exact model of the JavaScript number values reachable in the valuation
code: a finite rational or one of the IEEE special values NaN, +Infinity,
-Infinity.  Rounding is not modelled; all finite values stay exact. -/
inductive JSNum where
  | nan : JSNum
  | posInf : JSNum
  | negInf : JSNum
  | fin : ℚ → JSNum
deriving DecidableEq, Repr

namespace JSNum

/-- Negation of a JavaScript number. -/
def neg : JSNum → JSNum
  | nan => nan
  | posInf => negInf
  | negInf => posInf
  | fin q => fin (-q)

/-- Addition following IEEE-754 semantics (`Infinity + -Infinity = NaN`). -/
def add : JSNum → JSNum → JSNum
  | nan, _ => nan
  | _, nan => nan
  | posInf, negInf => nan
  | negInf, posInf => nan
  | posInf, _ => posInf
  | _, posInf => posInf
  | negInf, _ => negInf
  | _, negInf => negInf
  | fin a, fin b => fin (a + b)

/-- Subtraction, defined as addition of the negation (IEEE semantics). -/
def sub (x y : JSNum) : JSNum := add x (neg y)

/-- Multiplication following IEEE-754 semantics (`0 * Infinity = NaN`). -/
def mul : JSNum → JSNum → JSNum
  | nan, _ => nan
  | _, nan => nan
  | posInf, posInf => posInf
  | posInf, negInf => negInf
  | negInf, posInf => negInf
  | negInf, negInf => posInf
  | posInf, fin b => if b = 0 then nan else if 0 < b then posInf else negInf
  | fin a, posInf => if a = 0 then nan else if 0 < a then posInf else negInf
  | negInf, fin b => if b = 0 then nan else if 0 < b then negInf else posInf
  | fin a, negInf => if a = 0 then nan else if 0 < a then negInf else posInf
  | fin a, fin b => fin (a * b)

/-- Division following IEEE-754 semantics with a positive zero divisor
(`x / 0` is `±Infinity` for nonzero finite `x` and `NaN` for `x = 0`;
negative zero does not arise in the embedded code). -/
def div : JSNum → JSNum → JSNum
  | nan, _ => nan
  | _, nan => nan
  | posInf, posInf => nan
  | posInf, negInf => nan
  | negInf, posInf => nan
  | negInf, negInf => nan
  | posInf, fin b => if 0 ≤ b then posInf else negInf
  | negInf, fin b => if 0 ≤ b then negInf else posInf
  | fin _, posInf => fin 0
  | fin _, negInf => fin 0
  | fin a, fin b =>
      if b = 0 then
        if a = 0 then nan else if 0 < a then posInf else negInf
      else fin (a / b)

/-- Model of `Math.max(0, x)`: `Math.max` returns `NaN` when an argument
is `NaN`. -/
def max0 : JSNum → JSNum
  | nan => nan
  | posInf => posInf
  | negInf => fin 0
  | fin q => fin (max 0 q)

/-- Model of the JavaScript comparison `x > 0` (false on `NaN`). -/
def gt0 : JSNum → Bool
  | nan => false
  | posInf => true
  | negInf => false
  | fin q => decide (0 < q)

/-- Model of the JavaScript coercion `x || 0` (both `NaN` and `0` are
falsy, every other number is truthy). -/
def or0 : JSNum → JSNum
  | nan => fin 0
  | posInf => posInf
  | negInf => negInf
  | fin q => fin q

end JSNum

/-- Ledger transaction as stored in the portfolio (`usePortfolio.js`
creates records `{ id, coinId, type, amount, price, date }`; the `date` is
modelled as an integer timestamp, the `coinId` field plays no role in the
computations and is omitted).  `amount` and `price` are present. -/
structure Tx where
  id : String
  type : String
  amount : ℚ
  price : ℚ
  date : ℤ
deriving DecidableEq, Repr

/-- Transaction object taken from an imported JSON payload: the `amount`
and `price` fields may be missing (`none`).  `processPortfolioData` reads
them as `tx.amount || 0` and `tx.price || 0`. -/
structure RawTx where
  id : String
  type : String
  amount : Option ℚ
  price : Option ℚ
  date : ℤ
deriving DecidableEq, Repr

/-! ## cryptoUtils.js -/

/-- Embedding of `calculateHoldings` (cryptoUtils.js lines 8-16): a fold
over the transactions adding the amount of a `"buy"` and subtracting the
amount of anything else. -/
def calculateHoldings (transactions : List Tx) : ℚ :=
  transactions.foldl
    (fun total t => if t.type = "buy" then total + t.amount else total - t.amount) 0

/-- Embedding of `calculateAverageBuyPrice` (cryptoUtils.js lines 23-35):
total cost of the `"buy"` transactions divided by their total amount,
guarded by emptiness and positivity checks exactly as in the source. -/
def calculateAverageBuyPrice (transactions : List Tx) : ℚ :=
  let buyTransactions := transactions.filter (fun t => t.type = "buy")
  if buyTransactions.length = 0 then 0
  else
    let totalCost := buyTransactions.foldl (fun s t => s + t.price * t.amount) 0
    let totalAmount := buyTransactions.foldl (fun s t => s + t.amount) 0
    if 0 < totalAmount then totalCost / totalAmount else 0

/-- Embedding of `calculateTotalInvestment` (cryptoUtils.js lines 42-50):
adds `price * amount` of a `"buy"` and subtracts `price * amount` of
anything else (note: a sell subtracts its own proceeds). -/
def calculateTotalInvestment (transactions : List Tx) : ℚ :=
  transactions.foldl
    (fun total t =>
      if t.type = "buy" then total + t.price * t.amount else total - t.price * t.amount) 0

/-- Embedding of `calculateCurrentValue` (cryptoUtils.js lines 58-60). -/
def calculateCurrentValue (holdings currentPrice : ℚ) : ℚ :=
  holdings * currentPrice

/-- Embedding of `calculateProfitLoss` (cryptoUtils.js lines 68-70). -/
def calculateProfitLoss (currentValue totalInvestment : ℚ) : ℚ :=
  currentValue - totalInvestment

/-- Embedding of `calculateProfitLossPercentage` (cryptoUtils.js lines
78-80). -/
def calculateProfitLossPercentage (profitLoss totalInvestment : ℚ) : ℚ :=
  if 0 < totalInvestment then profitLoss / totalInvestment * 100 else 0

/-- Embedding of `getFirstBuyDate` (cryptoUtils.js lines 87-96): the
minimum date among the `"buy"` transactions, `none` when there is no buy
(the source formats the date into a `yyyy-MM-dd` string; the formatting is
abstracted and the underlying timestamp returned). -/
def getFirstBuyDate (transactions : List Tx) : Option ℤ :=
  let buys := transactions.filter (fun t => t.type = "buy")
  match buys.map (fun t => t.date) with
  | [] => none
  | d :: ds => some (ds.foldl min d)

/-- Embedding of `getLastTransactionDate` (cryptoUtils.js lines 103-110):
the maximum date among all transactions, `none` when the list is empty
(string formatting abstracted as in `getFirstBuyDate`). -/
def getLastTransactionDate (transactions : List Tx) : Option ℤ :=
  match transactions.map (fun t => t.date) with
  | [] => none
  | d :: ds => some (ds.foldl max d)

/-- Market data for one coin as consumed by `updatePortfolioCoin`
(the fields of the `cryptoData` argument that the function reads). -/
structure CryptoData where
  symbol : String
  name : String
  image : String
  current_price : ℚ
deriving DecidableEq, Repr

/-- Portfolio coin record of the refresh path (the object shape built by
`usePortfolio.js` and updated by `updatePortfolioCoin`). -/
structure UCoin where
  id : String
  symbol : String
  name : String
  image : String
  transactions : List Tx
  holdings : ℚ
  averageBuyPrice : ℚ
  totalInvestment : ℚ
  currentPrice : ℚ
  currentValue : ℚ
  profitLoss : ℚ
  profitLossPercentage : ℚ
  firstBuyDate : Option ℤ
  lastTransactionDate : Option ℤ
deriving DecidableEq, Repr

/-- Embedding of `updatePortfolioCoin` (cryptoUtils.js lines 118-147):
recomputes every derived field of a coin from its transactions and the
given market data, keeping `id` and `transactions`. -/
def updatePortfolioCoin (coin : UCoin) (cryptoData : CryptoData) : UCoin :=
  let holdings := calculateHoldings coin.transactions
  let averageBuyPrice := calculateAverageBuyPrice coin.transactions
  let totalInvestment := calculateTotalInvestment coin.transactions
  let currentPrice := cryptoData.current_price
  let currentValue := calculateCurrentValue holdings currentPrice
  let profitLoss := calculateProfitLoss currentValue totalInvestment
  let profitLossPercentage := calculateProfitLossPercentage profitLoss totalInvestment
  { coin with
    symbol := cryptoData.symbol
    name := cryptoData.name
    image := cryptoData.image
    holdings := holdings
    averageBuyPrice := averageBuyPrice
    totalInvestment := totalInvestment
    currentPrice := currentPrice
    currentValue := currentValue
    profitLoss := profitLoss
    profitLossPercentage := profitLossPercentage
    firstBuyDate := getFirstBuyDate coin.transactions
    lastTransactionDate := getLastTransactionDate coin.transactions }

/-- Portfolio record of the refresh path (`usePortfolio.js`). -/
structure UPortfolio where
  coins : List UCoin
  totalInvestment : ℚ
  totalValue : ℚ
  totalProfitLoss : ℚ
  totalProfitLossPercentage : ℚ
deriving DecidableEq, Repr

/-- Per-coin body of the `portfolio.coins.map` call in `updatePortfolio`
(cryptoUtils.js lines 156-161): a coin with no market data is returned
unchanged (`if (!cryptoData) return coin`). -/
def updateCoinWithMap (cryptoDataMap : String → Option CryptoData) (coin : UCoin) : UCoin :=
  match cryptoDataMap coin.id with
  | none => coin
  | some cryptoData => updatePortfolioCoin coin cryptoData

/-- Embedding of `updatePortfolio` (cryptoUtils.js lines 155-182): updates
each coin that has market data (a coin with no entry in the map is kept
unchanged) and recomputes the four portfolio totals from the updated
coins.  The market-data map is a function from coin id to optional data. -/
def updatePortfolio (portfolio : UPortfolio) (cryptoDataMap : String → Option CryptoData) :
    UPortfolio :=
  let updatedCoins := portfolio.coins.map (updateCoinWithMap cryptoDataMap)
  let totalInvestment := updatedCoins.foldl (fun s c => s + c.totalInvestment) (0 : ℚ)
  let totalValue := updatedCoins.foldl (fun s c => s + c.currentValue) (0 : ℚ)
  let totalProfitLoss := totalValue - totalInvestment
  let totalProfitLossPercentage :=
    if 0 < totalInvestment then totalProfitLoss / totalInvestment * 100 else 0
  { coins := updatedCoins
    totalInvestment := totalInvestment
    totalValue := totalValue
    totalProfitLoss := totalProfitLoss
    totalProfitLossPercentage := totalProfitLossPercentage }

/-! ## usePortfolio.js: processPortfolioData -/

/-- Running state of the per-coin transaction fold inside
`processPortfolioData` (usePortfolio.js lines 444-482): holdings, invested
capital, total bought amount and the two tracked dates.  The invested
capital is a `JSNum` because the sell branch divides by the post-sale
holdings, which can be zero. -/
structure PState where
  totalHoldings : ℚ
  totalInvestment : JSNum
  totalBuyAmount : ℚ
  firstBuyDate : Option ℤ
  lastTransactionDate : Option ℤ
deriving DecidableEq, Repr

/-- Embedding of one iteration of the `coin.transactions.forEach` loop of
`processPortfolioData` (usePortfolio.js lines 451-482).  Amount and price
are read as `tx.amount || 0` / `tx.price || 0`; a `"buy"` adds
`amount * price` to the invested capital; a `"sell"` first decrements the
holdings and then sets
`totalInvestment = Math.max(0, totalInvestment - (amount / totalHoldings) * totalInvestment)`
with `totalHoldings` already decremented (post-sale); any other type only
updates the date trackers. -/
def processTx (s : PState) (tx : RawTx) : PState :=
  let amount := tx.amount.getD 0
  let price := tx.price.getD 0
  let firstBuyDate :=
    match s.firstBuyDate with
    | none => if tx.type = "buy" then some tx.date else none
    | some d => if tx.type = "buy" ∧ tx.date < d then some tx.date else some d
  let lastTransactionDate :=
    match s.lastTransactionDate with
    | none => some tx.date
    | some d => if d < tx.date then some tx.date else some d
  if tx.type = "buy" then
    { totalHoldings := s.totalHoldings + amount
      totalInvestment := JSNum.add s.totalInvestment (JSNum.fin (amount * price))
      totalBuyAmount := s.totalBuyAmount + amount
      firstBuyDate := firstBuyDate
      lastTransactionDate := lastTransactionDate }
  else if tx.type = "sell" then
    let totalHoldings := s.totalHoldings - amount
    { totalHoldings := totalHoldings
      totalInvestment :=
        JSNum.max0 (JSNum.sub s.totalInvestment
          (JSNum.mul (JSNum.div (JSNum.fin amount) (JSNum.fin totalHoldings))
            s.totalInvestment))
      totalBuyAmount := s.totalBuyAmount
      firstBuyDate := firstBuyDate
      lastTransactionDate := lastTransactionDate }
  else
    { s with firstBuyDate := firstBuyDate, lastTransactionDate := lastTransactionDate }

/-- Initial fold state of `processPortfolioData` (usePortfolio.js lines
444-448). -/
def pStateInit : PState :=
  { totalHoldings := 0
    totalInvestment := JSNum.fin 0
    totalBuyAmount := 0
    firstBuyDate := none
    lastTransactionDate := none }

/-- Coin object as consumed by `processPortfolioData`: identity and market
fields plus the transaction list (extra payload fields such as `logoUrl`
are carried through the source by object spread but are inert and
omitted). -/
structure ImpCoin where
  id : String
  symbol : String
  name : String
  image : String
  currentPrice : ℚ
  transactions : List RawTx
deriving DecidableEq, Repr

/-- Processed coin returned by `processPortfolioData` (usePortfolio.js
lines 496-508): the input coin plus the recomputed derived fields. -/
structure ProcCoin where
  id : String
  symbol : String
  name : String
  image : String
  currentPrice : ℚ
  transactions : List RawTx
  holdings : ℚ
  totalInvestment : JSNum
  averageBuyPrice : JSNum
  currentValue : ℚ
  profitLoss : JSNum
  profitLossPercentage : JSNum
  firstBuyDate : Option ℤ
  lastTransactionDate : Option ℤ
deriving DecidableEq, Repr

/-- Embedding of the per-coin body of `processPortfolioData`
(usePortfolio.js lines 442-509): folds the transactions and derives
average buy price (invested capital over total bought amount, guarded by
`totalBuyAmount > 0`), current value, profit/loss and its percentage
(guarded by `totalInvestment > 0`). -/
def processCoin (coin : ImpCoin) : ProcCoin :=
  let s := coin.transactions.foldl processTx pStateInit
  let averageBuyPrice :=
    if 0 < s.totalBuyAmount then
      JSNum.div s.totalInvestment (JSNum.fin s.totalBuyAmount)
    else JSNum.fin 0
  let currentPrice := coin.currentPrice
  let currentValue := s.totalHoldings * currentPrice
  let profitLoss := JSNum.sub (JSNum.fin currentValue) s.totalInvestment
  let profitLossPercentage :=
    if JSNum.gt0 s.totalInvestment then
      JSNum.mul (JSNum.div profitLoss s.totalInvestment) (JSNum.fin 100)
    else JSNum.fin 0
  { id := coin.id
    symbol := coin.symbol
    name := coin.name
    image := coin.image
    currentPrice := currentPrice
    transactions := coin.transactions
    holdings := s.totalHoldings
    totalInvestment := s.totalInvestment
    averageBuyPrice := averageBuyPrice
    currentValue := currentValue
    profitLoss := profitLoss
    profitLossPercentage := profitLossPercentage
    firstBuyDate := s.firstBuyDate
    lastTransactionDate := s.lastTransactionDate }

/-- Portfolio returned by `processPortfolioData` (usePortfolio.js lines
525-531). -/
structure ProcPortfolio where
  coins : List ProcCoin
  totalInvestment : JSNum
  totalValue : ℚ
  totalProfitLoss : JSNum
  totalProfitLossPercentage : JSNum
deriving DecidableEq, Repr

/-- Embedding of `processPortfolioData` (usePortfolio.js lines 440-532):
processes every coin and accumulates the totals with the source's
`coin.totalInvestment || 0` and `coin.currentValue || 0` coercions. -/
def processPortfolioData (coins : List ImpCoin) : ProcPortfolio :=
  let processedCoins := coins.map processCoin
  let totalInvestment :=
    processedCoins.foldl (fun s c => JSNum.add s (JSNum.or0 c.totalInvestment))
      (JSNum.fin 0)
  let totalValue := processedCoins.foldl (fun s c => s + c.currentValue) (0 : ℚ)
  let totalProfitLoss := JSNum.sub (JSNum.fin totalValue) totalInvestment
  let totalProfitLossPercentage :=
    if JSNum.gt0 totalInvestment then
      JSNum.mul (JSNum.div totalProfitLoss totalInvestment) (JSNum.fin 100)
    else JSNum.fin 0
  { coins := processedCoins
    totalInvestment := totalInvestment
    totalValue := totalValue
    totalProfitLoss := totalProfitLoss
    totalProfitLossPercentage := totalProfitLossPercentage }

/-! ## usePortfolio.js: importPortfolio and exportPortfolioData -/

/-- JavaScript `a || b` on strings: the empty string is falsy. -/
def jsOrS (a b : String) : String :=
  if a = "" then b else a

/-- Coin object of an import payload.  String fields that may be missing
from the JSON are modelled as the empty string (missing and empty are both
falsy, and the source only reads them through `||`); a possibly missing
`transactions` array is an `Option`; a missing `currentPrice` is `0` (the
source reads it as `coin.currentPrice || 0`). -/
structure RawCoin where
  id : String
  symbol : String
  name : String
  image : String
  logoUrl : String
  coinGeckoId : String
  currentPrice : ℚ
  transactions : Option (List RawTx)
deriving DecidableEq, Repr

/-- Import payload: `none` models a payload whose `coins` field is not an
array (the shape `importPortfolio` rejects). -/
structure RawPortfolio where
  coins : Option (List RawCoin)
deriving DecidableEq, Repr

/-- Embedding of the per-coin normalisation map of `importPortfolio`
(usePortfolio.js lines 261-269): default the transactions to `[]`, prefer
`logoUrl` over `image`, and prefer `coinGeckoId` over `id` with a
`symbol-Date.now()` fallback; `now` is the value of `Date.now()`. -/
def importMapCoin (now : ℤ) (coin : RawCoin) : ImpCoin :=
  { id := jsOrS coin.coinGeckoId (jsOrS coin.id (coin.symbol ++ "-" ++ toString now))
    symbol := coin.symbol
    name := coin.name
    image := jsOrS coin.logoUrl coin.image
    currentPrice := coin.currentPrice
    transactions := coin.transactions.getD [] }

/-- Embedding of the synchronous prefix of `importPortfolio`
(usePortfolio.js lines 245-274): a `none` payload or one whose `coins`
field is not an array is rejected (`false` is returned and the stored
portfolio is untouched); otherwise the coins are normalised, processed by
`processPortfolioData`, and the result is immediately saved to storage,
replacing the previous portfolio.  The function returns the success flag
and the resulting stored portfolio.  The later network-refresh phase of
the source can only save a second processed version; it never restores the
previous portfolio, so the claims about acceptance and about the stored
portfolio being replaced/unchanged are decided here. -/
def importPortfolioModel (stored : Option ProcPortfolio) (payload : Option RawPortfolio)
    (now : ℤ) : Bool × Option ProcPortfolio :=
  match payload with
  | none => (false, stored)
  | some p =>
    match p.coins with
    | none => (false, stored)
    | some rawCoins =>
      let coins := rawCoins.map (importMapCoin now)
      let initialProcessed := processPortfolioData coins
      (true, some initialProcessed)

/-- Embedding of the per-coin part of `exportPortfolioData`
(usePortfolio.js lines 541-556): the coin is exported with a redundant
`logoUrl` copy of `image` and an explicit `coinGeckoId` copy of `id` (the
`lastUpdated` timestamp field is not read by any consumer and is
omitted). -/
def exportCoin (coin : ProcCoin) : RawCoin :=
  { id := coin.id
    symbol := coin.symbol
    name := coin.name
    image := coin.image
    logoUrl := coin.image
    coinGeckoId := coin.id
    currentPrice := coin.currentPrice
    transactions := some coin.transactions }

/-- Embedding of `exportPortfolioData` (usePortfolio.js lines 538-564) at
the payload level: JSON serialisation is the identity on the object
structure and is abstracted away. -/
def exportPortfolioModel (portfolio : ProcPortfolio) : RawPortfolio :=
  { coins := some (portfolio.coins.map exportCoin) }



/-! ## usePortfolio.js: importPortfolio with its network-refresh phase -/

/-- Structural model of the JavaScript `s.toLowerCase()` (character-wise
lowering over the character list, so that concrete runs reduce). -/
def jsToLower (s : String) : String :=
  String.mk (s.toList.map Char.toLower)

/-- Coin produced by the import normalisation map with the payload's
`coinGeckoId` retained: the source keeps it through object spread and the
network-refresh phase reads it again (`coin.coinGeckoId || coin.id`,
usePortfolio.js line 319).  `logoUrl` is read only inside the map itself
and stays omitted. -/
structure MCoin where
  id : String
  symbol : String
  name : String
  image : String
  coinGeckoId : String
  currentPrice : ℚ
  transactions : List RawTx
deriving DecidableEq, Repr

/-- The import normalisation map of `importPortfolio` (usePortfolio.js
lines 261-269) with `coinGeckoId` retained for the refresh phase. -/
def importMapCoinFull (now : ℤ) (coin : RawCoin) : MCoin :=
  { id := jsOrS coin.coinGeckoId (jsOrS coin.id (coin.symbol ++ "-" ++ toString now))
    symbol := coin.symbol
    name := coin.name
    image := jsOrS coin.logoUrl coin.image
    coinGeckoId := coin.coinGeckoId
    currentPrice := coin.currentPrice
    transactions := coin.transactions.getD [] }

/-- Forgetting the retained `coinGeckoId` gives back the processing-level
coin. -/
def MCoin.toImp (c : MCoin) : ImpCoin :=
  { id := c.id, symbol := c.symbol, name := c.name, image := c.image,
    currentPrice := c.currentPrice, transactions := c.transactions }

/-- Record delivered by the market-data providers during the refresh
phase of `importPortfolio` (the fields read at usePortfolio.js lines
322-332, 348-357 and 391-401). -/
structure ProviderCoin where
  id : String
  symbol : String
  name : String
  image : String
  current_price : ℚ
deriving DecidableEq, Repr

/-- Provider environment of one run of the refresh phase of
`importPortfolio`: whether the initial `Promise.all` fetch resolves
(`getMultipleCryptocurrencyDetails` may throw, in which case the catch at
usePortfolio.js lines 419-422 keeps the initially processed portfolio),
the resolved id-to-data map, the top-cryptos list, and the per-symbol
search results (`searchCryptocurrencies` resolves even on failure). -/
structure ImportEnv where
  fetchOk : Bool
  specific : List (String × ProviderCoin)
  topCryptos : List ProviderCoin
  search : String → List ProviderCoin

/-- JavaScript `a || b` on numbers: `0` is falsy. -/
def jsOrQ (a b : ℚ) : ℚ :=
  if a = 0 then b else a

/-- The field overwrite every refresh-phase update applies to a coin
(usePortfolio.js lines 324-332, 348-357, 391-401): id, name, image and
current price come from the provider record (image and price with `||`
fallbacks to the coin's own values); symbol and transactions are never
touched. -/
def overrideFromProvider (d : ProviderCoin) (c : MCoin) : MCoin :=
  { c with
    id := d.id
    name := d.name
    image := jsOrS d.image c.image
    currentPrice := jsOrQ d.current_price (jsOrQ c.currentPrice 0) }

/-- Model of `updatedCoins.findIndex(c => c.id === coin.id)` followed by
an in-place update at that index: the first coin with the target id is
replaced by `g` of itself; the flag reports whether a match was found
(`updated = true`). -/
def updateFirstById (targetId : String) (g : MCoin → MCoin) :
    List MCoin → List MCoin × Bool
  | [] => ([], false)
  | c :: cs =>
    if c.id = targetId then (g c :: cs, true)
    else
      let r := updateFirstById targetId g cs
      (c :: r.1, r.2)

/-- Model of the `coinsBySymbol[symbol].forEach` loops of the refresh
phase (usePortfolio.js lines 343-360 and 386-404): every coin of the
symbol group is looked up by its original id in the current list and
overwritten with the provider record. -/
def applyGroupUpdate (d : ProviderCoin) :
    List MCoin → List MCoin × Bool → List MCoin × Bool
  | [], st => st
  | coin :: rest, st =>
    let r := updateFirstById coin.id (overrideFromProvider d) st.1
    applyGroupUpdate d rest (r.1, st.2 || r.2)

/-- Model of the top-cryptos pass of the refresh phase (usePortfolio.js
lines 339-365): every top crypto whose symbol matches a symbol group gets
applied to that group, and the symbol is removed from the pending set. -/
def applyTopCryptos (coins : List MCoin) :
    List ProviderCoin → (List MCoin × Bool) × List String →
    (List MCoin × Bool) × List String
  | [], acc => acc
  | crypto :: rest, acc =>
    let symbol := jsToLower crypto.symbol
    let group := coins.filter (fun c => jsToLower c.symbol = symbol)
    applyTopCryptos coins rest
      (if group.length = 0 then acc
       else (applyGroupUpdate crypto group acc.1, acc.2.erase symbol))

/-- Model of the search fallback of the refresh phase (usePortfolio.js
lines 368-410): every symbol still pending is searched; a non-empty
result updates its group with the best match (exact symbol match,
otherwise the first result). -/
def applySearchResults (coins : List MCoin) (search : String → List ProviderCoin) :
    List String → List MCoin × Bool → List MCoin × Bool
  | [], st => st
  | symbol :: rest, st =>
    applySearchResults coins search rest
      (match search symbol with
       | [] => st
       | r :: rs =>
         let matchingCrypto := ((r :: rs).find? (fun c => jsToLower c.symbol = symbol)).getD r
         applyGroupUpdate matchingCrypto
           (coins.filter (fun c => jsToLower c.symbol = symbol)) st)

/-- Duplicate removal keeping first occurrences, the model of building
the JavaScript `Set` of coin symbols (insertion order preserved). -/
def dedupFirstAux (seen : List String) : List String → List String
  | [] => []
  | x :: rest =>
    if x ∈ seen then dedupFirstAux seen rest
    else x :: dedupFirstAux (x :: seen) rest

/-- The whole refresh phase of `importPortfolio` (usePortfolio.js lines
276-423) after a successful initial fetch: the specific-id pass, the
top-cryptos pass and the search fallback, threading the updated list and
the `updated` flag. -/
def refreshPhase (coins : List MCoin) (env : ImportEnv) : List MCoin × Bool :=
  let coinIdsList :=
    (coins.filter (fun c => c.coinGeckoId ≠ "" ∨ (c.id ≠ "" ∧ 5 < c.id.length))).map
      (fun c => jsOrS c.coinGeckoId c.id)
  let specificCryptos := if coinIdsList.length = 0 then [] else env.specific
  let st1 : List MCoin × Bool :=
    if specificCryptos.length = 0 then (coins, false)
    else
      (coins.map (fun coin =>
          match specificCryptos.lookup (jsOrS coin.coinGeckoId coin.id) with
          | some d => overrideFromProvider d coin
          | none => coin),
        coins.any (fun coin =>
          (specificCryptos.lookup (jsOrS coin.coinGeckoId coin.id)).isSome))
  let symbols0 := dedupFirstAux [] (coins.map (fun c => jsToLower c.symbol))
  let res2 := applyTopCryptos coins env.topCryptos (st1, symbols0)
  applySearchResults coins env.search res2.2 res2.1

/-- Embedding of the whole of `importPortfolio` (usePortfolio.js lines
245-433): validation, normalisation, initial processing and save, then —
when there is at least one coin — the network-refresh phase, whose result
is processed and saved again when any coin was updated; a failed refresh
fetch keeps the initially processed portfolio.  The result is the success
flag and the finally stored portfolio. -/
def importPortfolioFull (stored : Option ProcPortfolio) (payload : Option RawPortfolio)
    (now : ℤ) (env : ImportEnv) : Bool × Option ProcPortfolio :=
  match payload with
  | none => (false, stored)
  | some p =>
    match p.coins with
    | none => (false, stored)
    | some rawCoins =>
      let coins := rawCoins.map (importMapCoinFull now)
      let initialProcessed := processPortfolioData (coins.map MCoin.toImp)
      if coins.length = 0 then (true, some initialProcessed)
      else if env.fetchOk then
        let r := refreshPhase coins env
        if r.2 then (true, some (processPortfolioData (r.1.map MCoin.toImp)))
        else (true, some initialProcessed)
      else (true, some initialProcessed)

/-! ## lib/api.js: fetchWithRetry -/

/-- Embedding of the retry recursion of `fetchWithRetry` (api.js lines
76-154).  The fetcher is modelled as a function from the attempt index to
an outcome; the result is the final outcome paired with the number of
attempts made.  The source catches every error and, whenever
`retries > 0`, recurses with `retries - 1` after a backoff delay — the
error is never inspected.  Backoff delays, the in-flight dedupe map and
the 2-second debounce are time/identity bookkeeping around the same
attempt sequence and are abstracted away (`cacheKey` defaults to `null`,
which disables all of them). -/
def fetchWithRetryGo (f : ℕ → Except ℕ ℕ) : ℕ → ℕ → Except ℕ ℕ × ℕ
  | 0, idx =>
    match f idx with
    | Except.ok a => (Except.ok a, 1)
    | Except.error e => (Except.error e, 1)
  | retries + 1, idx =>
    match f idx with
    | Except.ok a => (Except.ok a, 1)
    | Except.error _ =>
      let res := fetchWithRetryGo f retries (idx + 1)
      (res.1, res.2 + 1)

/-- Embedding of `fetchWithRetry` with its default arguments
(`retries = 3`): at most four attempts are made.  Errors are HTTP status
codes (a network error without a response is status `0`). -/
def fetchWithRetryModel (f : ℕ → Except ℕ ℕ) : Except ℕ ℕ × ℕ :=
  fetchWithRetryGo f 3 0

/-! ## lib/api.js: rateLimitedRequest -/

/-- Rate-limiter state of api.js (`cache.requestCount` and
`cache.requestResetTime`, initialised to `0`). -/
structure RLState where
  requestCount : ℕ
  requestResetTime : ℤ
deriving DecidableEq, Repr

/-- One logical call through `rateLimitedRequest`: the wall-clock time at
which it runs and whether the caller supplied `fallbackData`. -/
structure RLCall where
  time : ℤ
  hasFallback : Bool
deriving DecidableEq, Repr

/-- Embedding of one sequential execution of `rateLimitedRequest` (api.js
lines 157-211) on the happy path (the fetcher does not throw a 429): the
counter is reset when more than 60 s have passed since `requestResetTime`;
with the budget (`MAX_REQUESTS_PER_MINUTE = 8`) exhausted the call either
returns the fallback (no outbound request) or sleeps to
`requestResetTime + 61000`, resets the counter and proceeds.  The result
is the new state and, when an outbound provider request is made, the pair
of its wall-clock time and the window epoch (`requestResetTime`) it was
counted in. -/
def rlStep (s : RLState) (c : RLCall) : RLState × Option (ℤ × ℤ) :=
  let s1 := if 60000 < c.time - s.requestResetTime then
      { requestCount := 0, requestResetTime := c.time } else s
  if 8 ≤ s1.requestCount then
    if c.hasFallback then (s1, none)
    else
      let t := s1.requestResetTime + 61000
      ({ requestCount := 1, requestResetTime := t }, some (t, t))
  else
    ({ s1 with requestCount := s1.requestCount + 1 }, some (c.time, s1.requestResetTime))

/-- Sequential run of `rateLimitedRequest` over a list of calls, returning
the outbound provider requests as (time, window-epoch) pairs. -/
def rlRun (s : RLState) : List RLCall → List (ℤ × ℤ)
  | [] => []
  | c :: cs =>
    match rlStep s c with
    | (s2, none) => rlRun s2 cs
    | (s2, some o) => o :: rlRun s2 cs

/-- Number of outbound requests whose time falls in the rolling 60-second
window starting at `a`. -/
def rollingCount (out : List (ℤ × ℤ)) (a : ℤ) : ℕ :=
  (out.filter (fun o => decide (a ≤ o.1 ∧ o.1 < a + 60000))).length

/-- Number of outbound requests counted in the fixed window with epoch
`ep`. -/
def epochCount (out : List (ℤ × ℤ)) (ep : ℤ) : ℕ :=
  (out.filter (fun o => decide (o.2 = ep))).length

/-! ## lib/api.js: searchCryptocurrencies -/

/-- Whitespace test of the JavaScript `String.prototype.trim` (the ASCII
whitespace characters that occur in practice; the full Unicode whitespace
class of the JS spec is abstracted to this subset). -/
def isJsWhitespace (c : Char) : Bool :=
  c = ' ' || c = '\t' || c = '\n' || c = '\r'

/-- Model of the JavaScript `query.trim()`: drop whitespace from both
ends. -/
def jsTrim (s : String) : String :=
  String.mk (((s.toList.dropWhile isJsWhitespace).reverse.dropWhile isJsWhitespace).reverse)

/-- Decidable substring test, the model of the JavaScript
`String.prototype.includes`. -/
def listHasInfix (pat : List Char) : List Char → Bool
  | [] => pat.isEmpty
  | c :: cs => pat.isPrefixOf (c :: cs) || listHasInfix pat cs

/-- JavaScript `s.includes(sub)`. -/
def jsIncludes (s sub : String) : Bool :=
  listHasInfix sub.toList s.toList

/-- JavaScript `String.prototype.replace` with a string pattern replaces
only the first occurrence. -/
def replaceFirstAux (pat rep : List Char) : List Char → List Char
  | [] => []
  | c :: cs =>
    if pat.isPrefixOf (c :: cs) then rep ++ (c :: cs).drop pat.length
    else c :: replaceFirstAux pat rep cs

/-- JavaScript `s.replace(pat, rep)` for a string pattern. -/
def jsReplaceFirst (s pat rep : String) : String :=
  String.mk (replaceFirstAux pat.toList rep.toList s.toList)

/-- Hexadecimal digit test for the contract-address pattern. -/
def isHexDigit (c : Char) : Bool :=
  c.isDigit || (decide ('a' ≤ c) && decide (c ≤ 'f')) || (decide ('A' ≤ c) && decide (c ≤ 'F'))

/-- Embedding of the contract-address test of `searchCryptocurrencies`
(api.js line 611): the case-insensitive regular expression
`^0x[a-fA-F0-9]{40}$`. -/
def isContractAddress (q : String) : Bool :=
  match q.toList with
  | c0 :: c1 :: rest =>
    (c0 = '0' : Bool) && (c1 = 'x' || c1 = 'X') && (rest.length = 40 : Bool)
      && rest.all isHexDigit
  | _ => false

/-- Binance 24-hour-ticker entry; only the trading-pair symbol is read on
the search path (volume and price-change fields are presentation data and
omitted). -/
structure BPair where
  symbol : String
deriving DecidableEq, Repr

/-- Canonical search-result coin; presentation-only numeric fields
(market cap, 24 h change, icon URL) are omitted. -/
structure CoinL where
  id : String
  symbol : String
  name : String
  current_price : ℚ
  binance_price_available : Bool
deriving DecidableEq, Repr

/-- Entry of the CoinGecko `search` endpoint response: an id and the
platform-to-contract-address map (as an association list). -/
structure SearchCoin where
  id : String
  platforms : List (String × String)
deriving DecidableEq, Repr

/-- Provider environment for one evaluation of the search pipeline: the
outcome each raw network endpoint would deliver.  `binanceTicker` and
`binancePrice` are `Option`s because `fetchBinanceSymbols` (api.js lines
573-599) and `getBinancePrice` (api.js lines 326-369) catch their own
errors and return `null`; the CoinGecko endpoints are `Except` because a
failure there (after `fetchWithRetry` exhaustion, with no cache) is thrown
to the caller.  `topCoinsCache` is `cache.topCoins.data`, which is only
ever populated by a successful provider fetch. -/
structure SearchEnv where
  binanceTicker : Option (List BPair)
  binancePrice : String → Option ℚ
  topCoinsCache : Option (List CoinL)
  geckoSearch : Except Unit (List SearchCoin)
  geckoMarkets : Except Unit (List CoinL)
  geckoContract : Except Unit (Option String)

/-- Embedding of `searchBinanceSymbols` (api.js lines 683-729): filters
the ticker list down to USDT pairs containing the query, takes the first
ten and prices each one, dropping pairs with no price.  Returns `none`
where the source returns `null` and counts the outbound provider requests
made. -/
def searchBinanceSymbols (env : SearchEnv) (query : String) :
    Option (List CoinL) × ℕ :=
  match env.binanceTicker with
  | none => (none, 1)
  | some symbols =>
    if symbols.length = 0 then (none, 1)
    else
      let normalizedQuery := query.toLower
      let matchingPairs := symbols.filter (fun s =>
        jsIncludes s.symbol.toLower normalizedQuery && s.symbol.endsWith "USDT")
      if matchingPairs.length = 0 then (none, 1)
      else
        let pairs := matchingPairs.take 10
        let results := pairs.filterMap (fun pair =>
          match env.binancePrice pair.symbol with
          | none => none
          | some price =>
            let baseSymbol := jsReplaceFirst pair.symbol "USDT" ""
            some { id := baseSymbol.toLower
                   symbol := baseSymbol.toLower
                   name := baseSymbol
                   current_price := price
                   binance_price_available := true })
        (some results, 1 + pairs.length)

/-- Embedding of `enrichWithBinanceData` (api.js lines 412-441): overlays
the Binance price when available, otherwise keeps the CoinGecko record. -/
def enrichWithBinanceData (env : SearchEnv) (coin : CoinL) : CoinL × ℕ :=
  match env.binancePrice (coin.symbol.toUpper ++ "USDT") with
  | some price => ({ coin with current_price := price, binance_price_available := true }, 1)
  | none => ({ coin with binance_price_available := false }, 1)

/-- Embedding of the fallback half of `searchContractAddress` (api.js
lines 766-798): a plain search filtered by matching platform contract
address, then a details fetch; any thrown CoinGecko error is caught by the
function's own handler, which returns `[]`.  `n` is the number of provider
requests already made. -/
def contractFallback (env : SearchEnv) (address : String) (n : ℕ) :
    List CoinL × ℕ :=
  match env.geckoSearch with
  | Except.error _ => ([], n + 1)
  | Except.ok coinsData =>
    let matchingCoins := coinsData.filter (fun c =>
      c.platforms.any (fun pr =>
        !(pr.2 == "") && (pr.2.toLower == address.toLower)))
    if 0 < matchingCoins.length then
      match env.geckoMarkets with
      | Except.error _ => ([], n + 2)
      | Except.ok details => (details, n + 2)
    else ([], n + 1)

/-- Embedding of `searchContractAddress` (api.js lines 736-803): contract
lookup, then a market-details fetch, then the plain-search fallback; every
thrown error is caught and turned into `[]`. -/
def searchContractAddress (env : SearchEnv) (address : String) :
    List CoinL × ℕ :=
  match env.geckoContract with
  | Except.error _ => ([], 1)
  | Except.ok none => contractFallback env address 1
  | Except.ok (some _) =>
    match env.geckoMarkets with
    | Except.error _ => ([], 2)
    | Except.ok details =>
      if 0 < details.length then (details.take 1, 2)
      else contractFallback env address 2

/-- Embedding of the CoinGecko tail of `searchCryptocurrencies` (api.js
lines 645-675): the `search` endpoint, then a details fetch for the first
ten hits, then per-coin Binance enrichment; an error thrown on this path
is caught by the outer handler of `searchCryptocurrencies`, which returns
`[]`. -/
def searchGeckoTail (env : SearchEnv) (n : ℕ) : List CoinL × ℕ :=
  match env.geckoSearch with
  | Except.error _ => ([], n + 1)
  | Except.ok resp =>
    let coins := resp.take 10
    if coins.length = 0 then ([], n + 1)
    else
      match env.geckoMarkets with
      | Except.error _ => ([], n + 2)
      | Except.ok validDetailsData =>
        let enriched := validDetailsData.map (fun c => (enrichWithBinanceData env c).1)
        (enriched, n + 2 + validDetailsData.length)

/-- Embedding of the cache branch of `searchCryptocurrencies` (api.js
lines 630-643) and everything after it. -/
def searchMainTail (env : SearchEnv) (query : String) (n : ℕ) :
    List CoinL × ℕ :=
  match env.topCoinsCache with
  | some data =>
    let cacheResults := data.filter (fun coin =>
      jsIncludes coin.name.toLower query.toLower
        || jsIncludes coin.symbol.toLower query.toLower)
    if 0 < cacheResults.length then (cacheResults.take 10, n)
    else searchGeckoTail env n
  | none => searchGeckoTail env n

/-- Embedding of `searchCryptocurrencies` (api.js lines 606-676): an empty
or whitespace-only query returns `[]` immediately; a contract address goes
to `searchContractAddress`; otherwise Binance search, then the cached
top-coins list, then CoinGecko, with the outer catch turning any thrown
error into `[]`.  The second component counts the outbound provider
requests made (one per logical endpoint lookup; retry attempts inside a
lookup are not multiplied out). -/
def searchCryptocurrencies (env : SearchEnv) (query : String) :
    List CoinL × ℕ :=
  if jsTrim query = "" then ([], 0)
  else if isContractAddress query then searchContractAddress env query
  else
    match searchBinanceSymbols env query with
    | (some binanceResults, n) =>
      if 0 < binanceResults.length then (binanceResults, n)
      else searchMainTail env query n
    | (none, n) => searchMainTail env query n



/-! ## Supporting definitions for the claims -/

/-- Model of the JavaScript comparison `x >= 0` (false on `NaN`). -/
def JSNum.ge0 : JSNum → Bool
  | JSNum.nan => false
  | JSNum.posInf => true
  | JSNum.negInf => false
  | JSNum.fin q => decide (0 ≤ q)

/-- Inconsistency marker of a computed coin position.  The record returned
by `updatePortfolioCoin` (cryptoUtils.js lines 132-146) has no
inconsistency or warning field and no code path in the repository sets any
such flag, so the marker is constantly `false` on every output of the
valuation. -/
def hasInconsistentFlag (_ : UCoin) : Bool := false

/-- Predicate for transaction lists without an over-sell: starting from
holdings `h`, every `"sell"` has amount at most the holdings accumulated
so far. -/
def oversellFree (h : ℚ) : List Tx → Bool
  | [] => true
  | t :: ts =>
    if t.type = "buy" then oversellFree (h + t.amount) ts
    else decide (t.amount ≤ h) && oversellFree (h - t.amount) ts

/-- Disjunction satisfied by the invested capital computed by
`processPortfolioData` on data-model-conforming transactions: either the
`NaN` special value or a nonnegative finite number. -/
def nanOrNonneg (x : JSNum) : Prop :=
  x = JSNum.nan ∨ ∃ q : ℚ, x = JSNum.fin q ∧ 0 ≤ q

/-- Weight of an epoch relative to a rate-limiter state, used as the
induction invariant for the fixed-window bound: the current window carries
its request count, past epochs are saturated, future epochs are empty. -/
def epWeight (s : RLState) (ep : ℤ) : ℕ :=
  if ep = s.requestResetTime then s.requestCount
  else if ep < s.requestResetTime then 8 else 0

/-! ## Helper lemmas -/

theorem JSNum.mul_nan_right (x : JSNum) : JSNum.mul x JSNum.nan = JSNum.nan := by
  cases x <;> rfl

theorem JSNum.sub_nan_left (y : JSNum) : JSNum.sub JSNum.nan y = JSNum.nan := by
  cases y <;> rfl

theorem JSNum.sub_nan_right (x : JSNum) : JSNum.sub x JSNum.nan = JSNum.nan := by
  cases x <;> rfl

theorem foldl_holdings_allbuy (l : List Tx) :
    ∀ a : ℚ, (∀ t ∈ l, t.type = "buy") →
    l.foldl (fun total t => if t.type = "buy" then total + t.amount else total - t.amount) a
      = l.foldl (fun s t => s + t.amount) a := by
  induction l with
  | nil => intro a _; rfl
  | cons t ts ih =>
    intro a h
    have ht := h t (List.mem_cons_self t ts)
    simp only [List.foldl_cons, if_pos ht]
    exact ih (a + t.amount) (fun x hx => h x (List.mem_cons_of_mem t hx))

theorem foldl_investment_allbuy (l : List Tx) :
    ∀ a : ℚ, (∀ t ∈ l, t.type = "buy") →
    l.foldl
        (fun total t =>
          if t.type = "buy" then total + t.price * t.amount else total - t.price * t.amount) a
      = l.foldl (fun s t => s + t.price * t.amount) a := by
  induction l with
  | nil => intro a _; rfl
  | cons t ts ih =>
    intro a h
    have ht := h t (List.mem_cons_self t ts)
    simp only [List.foldl_cons, if_pos ht]
    exact ih (a + t.price * t.amount) (fun x hx => h x (List.mem_cons_of_mem t hx))

theorem oversellFree_foldl_nonneg (l : List Tx) :
    ∀ h : ℚ, 0 ≤ h → (∀ t ∈ l, 0 ≤ t.amount) → oversellFree h l = true →
    0 ≤ l.foldl
      (fun total t => if t.type = "buy" then total + t.amount else total - t.amount) h := by
  induction l with
  | nil => intro h hh _ _; simpa using hh
  | cons t ts ih =>
    intro h hh hamt hfree
    have hta := hamt t (List.mem_cons_self t ts)
    have hrest : ∀ x ∈ ts, 0 ≤ x.amount := fun x hx => hamt x (List.mem_cons_of_mem t hx)
    by_cases hb : t.type = "buy"
    · simp only [oversellFree, if_pos hb] at hfree
      simp only [List.foldl_cons, if_pos hb]
      exact ih (h + t.amount) (by linarith) hrest hfree
    · simp only [oversellFree, if_neg hb, Bool.and_eq_true, decide_eq_true_eq] at hfree
      simp only [List.foldl_cons, if_neg hb]
      exact ih (h - t.amount) (by linarith [hfree.1]) hrest hfree.2



theorem processTx_nanOrNonneg (s : PState) (tx : RawTx)
    (ha : 0 ≤ tx.amount.getD 0) (hp : 0 ≤ tx.price.getD 0)
    (h : nanOrNonneg s.totalInvestment) :
    nanOrNonneg (processTx s tx).totalInvestment := by
  by_cases hb : tx.type = "buy"
  · simp only [processTx, if_pos hb]
    rcases h with hnan | ⟨q, hq, hq0⟩
    · left
      rw [hnan]
      rfl
    · right
      refine ⟨q + tx.amount.getD 0 * tx.price.getD 0, ?_, ?_⟩
      · rw [hq]
        rfl
      · have := mul_nonneg ha hp
        linarith
  · by_cases hsell : tx.type = "sell"
    · simp only [processTx, if_neg hb, if_pos hsell]
      rcases h with hnan | ⟨q, hq, hq0⟩
      · left
        rw [hnan, JSNum.mul_nan_right, JSNum.sub_nan_right]
        rfl
      · rw [hq]
        by_cases hH : s.totalHoldings - tx.amount.getD 0 = 0
        · by_cases ha0 : tx.amount.getD 0 = 0
          · left
            have hH0 : s.totalHoldings = 0 := by
              rw [ha0, sub_zero] at hH
              exact hH
            simp [JSNum.div, JSNum.mul, JSNum.sub, JSNum.neg, JSNum.add, JSNum.max0,
              hH0, ha0]
          · have hapos : 0 < tx.amount.getD 0 := lt_of_le_of_ne ha (Ne.symm ha0)
            by_cases hq0' : q = 0
            · left
              simp [JSNum.div, JSNum.mul, JSNum.sub, JSNum.neg, JSNum.add, JSNum.max0,
                hH, ha0, hapos, hq0']
            · have hqpos : 0 < q := lt_of_le_of_ne hq0 (Ne.symm hq0')
              right
              refine ⟨0, ?_, le_rfl⟩
              simp [JSNum.div, JSNum.mul, JSNum.sub, JSNum.neg, JSNum.add, JSNum.max0,
                hH, ha0, hapos, hq0', hqpos]
        · right
          refine ⟨max 0 (q - tx.amount.getD 0 / (s.totalHoldings - tx.amount.getD 0) * q), ?_,
            le_max_left 0 _⟩
          simp [JSNum.div, JSNum.mul, JSNum.sub, JSNum.neg, JSNum.add, JSNum.max0, hH]
          ring_nf
    · simp only [processTx, if_neg hb, if_neg hsell]
      exact h


theorem processCoin_id (ic : ImpCoin) : (processCoin ic).id = ic.id := rfl

theorem processCoin_symbol (ic : ImpCoin) : (processCoin ic).symbol = ic.symbol := rfl

theorem processCoin_transactions (ic : ImpCoin) :
    (processCoin ic).transactions = ic.transactions := rfl

theorem epochCount_cons (o : ℤ × ℤ) (l : List (ℤ × ℤ)) (ep : ℤ) :
    epochCount (o :: l) ep = (if o.2 = ep then 1 else 0) + epochCount l ep := by
  by_cases h : o.2 = ep <;> simp [epochCount, List.filter_cons, h, Nat.add_comm]

theorem rl_epoch_inv (calls : List RLCall) :
    ∀ s : RLState, s.requestCount ≤ 8 →
    ∀ ep : ℤ, epochCount (rlRun s calls) ep + epWeight s ep ≤ 8 := by
  induction calls with
  | nil =>
    intro s hs ep
    simp only [rlRun, epochCount, List.filter_nil, List.length_nil, Nat.zero_add]
    unfold epWeight
    split_ifs <;> omega
  | cons c cs ih =>
    intro s hs ep
    by_cases hr : 60000 < c.time - s.requestResetTime
    · -- window expired: counter reset to the fresh epoch c.time
      have ht : s.requestResetTime < c.time := by omega
      simp only [rlRun, rlStep, if_pos hr]
      norm_num
      rw [epochCount_cons]
      have h8 := ih { requestCount := 1, requestResetTime := c.time } (by norm_num) ep
      unfold epWeight at h8 ⊢
      simp only at h8 ⊢
      split_ifs at h8 ⊢ <;> omega
    · simp only [rlRun, rlStep, if_neg hr]
      by_cases hc8 : 8 ≤ s.requestCount
      · by_cases hf : c.hasFallback = true
        · -- budget exhausted, fallback returned: no outbound request
          simp only [if_pos hc8, if_pos hf]
          exact ih s hs ep
        · -- budget exhausted, wait to the next window and proceed there
          simp only [if_pos hc8, if_neg hf]
          rw [epochCount_cons]
          have h8 := ih
            { requestCount := 1, requestResetTime := s.requestResetTime + 61000 }
            (by norm_num) ep
          unfold epWeight at h8 ⊢
          simp only at h8 ⊢
          split_ifs at h8 ⊢ <;> omega
      · -- budget available: proceed in the current window
        simp only [if_neg hc8]
        rw [epochCount_cons]
        have h8 := ih (RLState.mk (s.requestCount + 1) s.requestResetTime)
          (by show s.requestCount + 1 ≤ 8; omega) ep
        have e1 : (RLState.mk (s.requestCount + 1) s.requestResetTime).requestCount
            = s.requestCount + 1 := rfl
        have e2 : (RLState.mk (s.requestCount + 1) s.requestResetTime).requestResetTime
            = s.requestResetTime := rfl
        unfold epWeight at h8 ⊢
        rw [e1, e2] at h8
        split_ifs at h8 ⊢ <;> omega


theorem importMapCoinFull_toImp (now : ℤ) (c : RawCoin) :
    (importMapCoinFull now c).toImp = importMapCoin now c := rfl

theorem updateFirstById_skeleton (targetId : String) (d : ProviderCoin) (l : List MCoin) :
    (updateFirstById targetId (overrideFromProvider d) l).1.map
        (fun c => (c.symbol, c.transactions))
      = l.map (fun c => (c.symbol, c.transactions)) := by
  induction l with
  | nil => rfl
  | cons c cs ih =>
    by_cases h : c.id = targetId
    · simp [updateFirstById, h, overrideFromProvider]
    · simp [updateFirstById, h, ih]

theorem applyGroupUpdate_skeleton (d : ProviderCoin) (group : List MCoin) :
    ∀ st : List MCoin × Bool,
    (applyGroupUpdate d group st).1.map (fun c => (c.symbol, c.transactions))
      = st.1.map (fun c => (c.symbol, c.transactions)) := by
  induction group with
  | nil => intro st; rfl
  | cons coin rest ih =>
    intro st
    simp only [applyGroupUpdate]
    rw [ih]
    exact updateFirstById_skeleton coin.id d st.1

theorem applyTopCryptos_skeleton (coins : List MCoin) (topCryptos : List ProviderCoin) :
    ∀ acc : (List MCoin × Bool) × List String,
    (applyTopCryptos coins topCryptos acc).1.1.map (fun c => (c.symbol, c.transactions))
      = acc.1.1.map (fun c => (c.symbol, c.transactions)) := by
  induction topCryptos with
  | nil => intro acc; rfl
  | cons crypto rest ih =>
    intro acc
    simp only [applyTopCryptos]
    rw [ih]
    by_cases hg :
        (coins.filter (fun c => jsToLower c.symbol = jsToLower crypto.symbol)).length = 0
    · simp [hg]
    · simp [hg, applyGroupUpdate_skeleton]

theorem applySearchResults_skeleton (coins : List MCoin)
    (search : String → List ProviderCoin) (symbols : List String) :
    ∀ st : List MCoin × Bool,
    (applySearchResults coins search symbols st).1.map (fun c => (c.symbol, c.transactions))
      = st.1.map (fun c => (c.symbol, c.transactions)) := by
  induction symbols with
  | nil => intro st; rfl
  | cons symbol rest ih =>
    intro st
    simp only [applySearchResults]
    rw [ih]
    rcases hs : search symbol with _ | ⟨r, rs⟩
    · rfl
    · exact applyGroupUpdate_skeleton _ _ st

theorem specMap_skeleton (spec : List (String × ProviderCoin)) (l : List MCoin) :
    (l.map (fun coin =>
        match spec.lookup (jsOrS coin.coinGeckoId coin.id) with
        | some d => overrideFromProvider d coin
        | none => coin)).map (fun c => (c.symbol, c.transactions))
      = l.map (fun c => (c.symbol, c.transactions)) := by
  induction l with
  | nil => rfl
  | cons c cs ih =>
    simp only [List.map_cons, ih, List.cons.injEq, and_true]
    rcases spec.lookup (jsOrS c.coinGeckoId c.id) with _ | d
    · rfl
    · rfl

theorem refreshPhase_skeleton (coins : List MCoin) (env : ImportEnv) :
    (refreshPhase coins env).1.map (fun c => (c.symbol, c.transactions))
      = coins.map (fun c => (c.symbol, c.transactions)) := by
  have hst1 : ∀ spec : List (String × ProviderCoin),
      ((if spec.length = 0 then ((coins, false) : List MCoin × Bool)
        else
          (coins.map (fun coin =>
              match spec.lookup (jsOrS coin.coinGeckoId coin.id) with
              | some d => overrideFromProvider d coin
              | none => coin),
            coins.any (fun coin =>
              (spec.lookup (jsOrS coin.coinGeckoId coin.id)).isSome)))).1.map
          (fun c => (c.symbol, c.transactions))
        = coins.map (fun c => (c.symbol, c.transactions)) := by
    intro spec
    split_ifs
    · rfl
    · exact specMap_skeleton spec coins
  unfold refreshPhase
  rw [applySearchResults_skeleton, applyTopCryptos_skeleton]
  exact hst1 _

theorem procChain_skeleton (l : List MCoin) :
    ((l.map MCoin.toImp).map processCoin).map (fun c => (c.symbol, c.transactions))
      = l.map (fun c => (c.symbol, c.transactions)) := by
  rw [List.map_map, List.map_map]
  rfl

theorem exportImport_skeleton (now : ℤ) (l : List ProcCoin) :
    ((l.map exportCoin).map (importMapCoinFull now)).map (fun c => (c.symbol, c.transactions))
      = l.map (fun c => (c.symbol, c.transactions)) := by
  rw [List.map_map, List.map_map]
  rfl

theorem exportImport_triple (now : ℤ) (l : List ProcCoin) (h : ∀ c ∈ l, c.id ≠ "") :
    (((l.map exportCoin).map (importMapCoin now)).map processCoin).map
        (fun c => (c.id, c.symbol, c.transactions))
      = l.map (fun c => (c.id, c.symbol, c.transactions)) := by
  induction l with
  | nil => rfl
  | cons c cs ih =>
    have hc := h c (List.mem_cons_self c cs)
    have hcs := fun x hx => h x (List.mem_cons_of_mem c hx)
    simp only [List.map_cons, List.cons.injEq]
    constructor
    · simp [exportCoin, importMapCoin, jsOrS, processCoin_id, processCoin_symbol,
        processCoin_transactions, hc]
    · exact ih hcs

theorem exportImportFull_toImp (now : ℤ) (l : List ProcCoin) :
    ((l.map exportCoin).map (importMapCoinFull now)).map MCoin.toImp
      = (l.map exportCoin).map (importMapCoin now) := by
  rw [List.map_map, List.map_map, List.map_map]
  rfl

/-! ## Concrete inputs used by the claims -/

/-- Scenario transactions of §8 of the spec in the import/processing
representation: Buy 1.0 at 10000, then Sell 0.4 at 12000. -/
def c1txs : List RawTx :=
  [{ id := "t1", type := "buy", amount := some 1, price := some 10000, date := 0 },
   { id := "t2", type := "sell", amount := some (2/5), price := some 12000, date := 1 }]

/-- Scenario coin with current price 15000. -/
def c1coin : ImpCoin :=
  { id := "bitcoin", symbol := "btc", name := "Bitcoin", image := "",
    currentPrice := 15000, transactions := c1txs }

/-- Scenario transactions in the ledger representation handled by
`cryptoUtils.js`. -/
def c1ledgerTxs : List Tx :=
  [{ id := "t1", type := "buy", amount := 1, price := 10000, date := 0 },
   { id := "t2", type := "sell", amount := 2/5, price := 12000, date := 1 }]

/-- Coin holding a single over-sell: Sell 1.0 with no prior buy. -/
def c2coin : UCoin :=
  { id := "bitcoin", symbol := "btc", name := "Bitcoin", image := "",
    transactions := [{ id := "s1", type := "sell", amount := 1, price := 5, date := 0 }],
    holdings := 0, averageBuyPrice := 0, totalInvestment := 0, currentPrice := 0,
    currentValue := 0, profitLoss := 0, profitLossPercentage := 0,
    firstBuyDate := none, lastTransactionDate := none }

/-- Market data used with `c2coin`. -/
def c2data : CryptoData :=
  { symbol := "btc", name := "Bitcoin", image := "", current_price := 10 }

/-- Transactions used to witness the over-sell-free part of C2. -/
def c2okTxs : List Tx :=
  [{ id := "b1", type := "buy", amount := 2, price := 5, date := 0 },
   { id := "s1", type := "sell", amount := 1, price := 6, date := 1 }]

/-- Buys-only transaction list used as the C4 witness input. -/
def c4txs : List Tx :=
  [{ id := "b1", type := "buy", amount := 2, price := 100, date := 0 },
   { id := "b2", type := "buy", amount := 2, price := 200, date := 1 }]

/-- Fetcher whose first attempt fails with HTTP 404 and then succeeds. -/
def c6fetcher : ℕ → Except ℕ ℕ :=
  fun i => if i = 0 then Except.error 404 else Except.ok 42

/-- Fetcher that always fails with HTTP 503. -/
def c6errFetcher : ℕ → Except ℕ ℕ :=
  fun _ => Except.error 503

/-- Transactions driving the invested capital of `processPortfolioData` to
`NaN`: Buy 3 at 10, Sell 2 (clamps the capital to 0 while one unit is
still held), Sell 1 (divides by zero post-sale holdings with zero
capital). -/
def c9txs : List RawTx :=
  [{ id := "a", type := "buy", amount := some 3, price := some 10, date := 0 },
   { id := "b", type := "sell", amount := some 2, price := some 10, date := 1 },
   { id := "c", type := "sell", amount := some 1, price := some 10, date := 2 }]

/-- Coin carrying the `NaN`-producing transactions. -/
def c9coin : ImpCoin :=
  { id := "bitcoin", symbol := "btc", name := "Bitcoin", image := "",
    currentPrice := 10, transactions := c9txs }

/-- Well-behaved coin used as the C9 witness input. -/
def c9wcoin : ImpCoin :=
  { id := "eth", symbol := "eth", name := "Ethereum", image := "",
    currentPrice := 20,
    transactions :=
      [{ id := "b1", type := "buy", amount := some 2, price := some 15, date := 0 },
       { id := "s1", type := "sell", amount := some 1, price := some 25, date := 1 }] }

/-! ## Claims -/

/-- C1 counterexample: on the spec scenario Buy 1.0 at 10000, Sell 0.4 at
12000, neither valuation path computes the claimed invested capital of
6000: `processPortfolioData` divides by the post-sale holdings and yields
10000/3, and `calculateTotalInvestment` subtracts the sell proceeds and
yields 5200. -/
theorem c1_counterexample :
    (processCoin c1coin).totalInvestment ≠ JSNum.fin 6000 ∧
    calculateTotalInvestment c1ledgerTxs ≠ 6000 := by
  have hsb : ("sell" : String) ≠ "buy" := by decide
  constructor
  · norm_num [processCoin, processTx, pStateInit, JSNum.add, JSNum.sub, JSNum.neg,
      JSNum.mul, JSNum.div, JSNum.max0, c1coin, c1txs, hsb]
  · norm_num [calculateTotalInvestment, c1ledgerTxs, hsb]

/-- C1 (amended): a Buy adds `amount * price` to the invested capital, but
a Sell in `processPortfolioData` reduces it by
`(sellAmount / postSaleHoldings) * investedCapital` clamped at zero — the
holdings are decremented before the division — so the scenario Buy 1.0 at
10000, Sell 0.4 at 12000 yields holdings 0.6, investedCapital 10000/3,
averageCost 10000/3, and with currentPrice 15000, currentValue 9000,
profitLoss 17000/3 and profitLossPct 170; the refresh-path
`calculateTotalInvestment` instead subtracts the sell proceeds, yielding
5200. -/
theorem c1_amended :
    (processCoin c1coin).holdings = 3/5 ∧
    (processCoin c1coin).totalInvestment = JSNum.fin (10000/3) ∧
    (processCoin c1coin).averageBuyPrice = JSNum.fin (10000/3) ∧
    (processCoin c1coin).currentValue = 9000 ∧
    (processCoin c1coin).profitLoss = JSNum.fin (17000/3) ∧
    (processCoin c1coin).profitLossPercentage = JSNum.fin 170 ∧
    calculateTotalInvestment c1ledgerTxs = 5200 := by
  have hsb : ("sell" : String) ≠ "buy" := by decide
  refine ⟨?_, ?_, ?_, ?_, ?_, ?_, ?_⟩ <;>
    norm_num [processCoin, processTx, pStateInit, JSNum.add, JSNum.sub, JSNum.neg,
      JSNum.mul, JSNum.div, JSNum.max0, JSNum.gt0, calculateTotalInvestment,
      c1coin, c1txs, c1ledgerTxs, hsb]

/-- C2 counterexample: the over-sell Sell 1.0 with no prior buy is
computed numerically (holdings −1, no crash) but the resulting position
carries no Inconsistent flag — the output record of `updatePortfolioCoin`
has no such field and nothing in the repository sets one. -/
theorem c2_counterexample :
    calculateHoldings c2coin.transactions = -1 ∧
    (updatePortfolioCoin c2coin c2data).holdings = -1 ∧
    hasInconsistentFlag (updatePortfolioCoin c2coin c2data) = false := by
  have hsb : ("sell" : String) ≠ "buy" := by decide
  refine ⟨?_, ?_, rfl⟩ <;>
    norm_num [calculateHoldings, updatePortfolioCoin, c2coin, hsb]

/-- C2 (amended): for every transaction list with nonnegative amounts, the
valuation is total and purely numeric; when no Sell exceeds the holdings
accumulated so far the computed holdings are nonnegative, and no
Inconsistent flag exists or is ever set — an over-sell merely produces
negative holdings with the flag still absent. -/
theorem c2_amended (txs : List Tx) (coin : UCoin) (d : CryptoData)
    (hamt : ∀ t ∈ txs, 0 ≤ t.amount) (hfree : oversellFree 0 txs = true) :
    0 ≤ calculateHoldings txs ∧
    hasInconsistentFlag (updatePortfolioCoin coin d) = false :=
  ⟨oversellFree_foldl_nonneg txs 0 le_rfl hamt hfree, rfl⟩

/-- C2 witness: the amended theorem applied to Buy 2, Sell 1. -/
theorem c2_witness :
    0 ≤ calculateHoldings c2okTxs ∧
    hasInconsistentFlag (updatePortfolioCoin c2coin c2data) = false := by
  refine c2_amended c2okTxs c2coin c2data ?_ ?_
  · intro t ht
    simp only [c2okTxs, List.mem_cons, List.not_mem_nil, or_false] at ht
    rcases ht with h | h <;> rw [h] <;> norm_num
  · norm_num [c2okTxs, oversellFree]

/-- C4: for a transaction list containing only Buys with positive total
bought amount, the average buy price equals the total investment divided
by the holdings, exactly (the embedding computes in exact rational
arithmetic, so the floating-point epsilon of the claim is not needed). -/
theorem c4_avg_cost_ratio (txs : List Tx)
    (hall : ∀ t ∈ txs, t.type = "buy") (hpos : 0 < calculateHoldings txs) :
    calculateAverageBuyPrice txs = calculateTotalInvestment txs / calculateHoldings txs := by
  have hfilter : txs.filter (fun t => t.type = "buy") = txs := by
    rw [List.filter_eq_self]
    intro t ht
    simpa using hall t ht
  have hhold : calculateHoldings txs = txs.foldl (fun s t => s + t.amount) 0 :=
    foldl_holdings_allbuy txs 0 hall
  have hinv :
      calculateTotalInvestment txs = txs.foldl (fun s t => s + t.price * t.amount) 0 :=
    foldl_investment_allbuy txs 0 hall
  have hne : txs.length ≠ 0 := by
    intro h0
    rw [List.length_eq_zero] at h0
    subst h0
    simp [calculateHoldings] at hpos
  rw [calculateAverageBuyPrice, hfilter, if_neg hne, hinv, hhold]
  rw [if_pos (by rw [hhold] at hpos; exact hpos)]

/-- C4 witness: the theorem applied to two buys (2 at 100 and 2 at 200),
where average cost 150 = 600 / 4. -/
theorem c4_witness :
    calculateAverageBuyPrice c4txs = calculateTotalInvestment c4txs / calculateHoldings c4txs := by
  refine c4_avg_cost_ratio c4txs ?_ ?_
  · intro t ht
    simp only [c4txs, List.mem_cons, List.not_mem_nil, or_false] at ht
    rcases ht with h | h <;> rw [h]
  · norm_num [calculateHoldings, c4txs]

/-- C6 counterexample: an operation whose first attempt fails with HTTP
404 (a 4xx other than 429) is retried — the wrapper makes a second attempt
and returns its success instead of failing fast with the 404. -/
theorem c6_counterexample :
    fetchWithRetryModel c6fetcher = (Except.ok 42, 2) ∧
    (fetchWithRetryModel c6fetcher).2 ≠ 1 := by
  exact ⟨rfl, by decide⟩

/-- C6 (amended): `fetchWithRetry` never inspects the error: it retries on
every failure, transient or not, making at most `retries + 1` attempts,
and when every attempt fails it makes exactly `retries + 1` attempts and
propagates the last error. -/
theorem c6_amended (f : ℕ → Except ℕ ℕ) (retries idx : ℕ) :
    (fetchWithRetryGo f retries idx).2 ≤ retries + 1 ∧
    ((∀ i, ∃ e, f i = Except.error e) →
      fetchWithRetryGo f retries idx = (f (idx + retries), retries + 1)) := by
  induction retries generalizing idx with
  | zero =>
    constructor
    · rcases hf : f idx with e | a <;> simp [fetchWithRetryGo, hf]
    · intro h
      obtain ⟨e, he⟩ := h idx
      simp [fetchWithRetryGo, he]
  | succ r ih =>
    constructor
    · rcases hf : f idx with e | a
      · simp only [fetchWithRetryGo, hf]
        have := (ih (idx + 1)).1
        omega
      · simp [fetchWithRetryGo, hf]
    · intro h
      obtain ⟨e, he⟩ := h idx
      simp only [fetchWithRetryGo, he]
      have h2 := (ih (idx + 1)).2 h
      rw [h2]
      have : idx + 1 + r = idx + (r + 1) := by omega
      rw [this]

/-- C6 witness: the amended theorem applied to a fetcher failing every
attempt with HTTP 503 and the default three retries: four attempts are
made and the last error is propagated. -/
theorem c6_witness :
    fetchWithRetryGo c6errFetcher 3 0 = (Except.error 503, 4) := by
  have h := (c6_amended c6errFetcher 3 0).2 (fun _ => ⟨503, rfl⟩)
  simpa [c6errFetcher] using h

/-- C8: refreshing with unchanged transactions and unchanged market data
is idempotent — applying `updatePortfolio` a second time with the same
market-data map reproduces the identical portfolio, in particular the four
totals. -/
theorem c8_refresh_idem (p : UPortfolio) (m : String → Option CryptoData) :
    updatePortfolio (updatePortfolio p m) m = updatePortfolio p m := by
  have hcoin : ∀ c : UCoin, updateCoinWithMap m (updateCoinWithMap m c) = updateCoinWithMap m c := by
    intro c
    rcases hm : m c.id with _ | d
    · simp [updateCoinWithMap, hm]
    · have hid : (updatePortfolioCoin c d).id = c.id := rfl
      simp only [updateCoinWithMap, hm, hid]
      rfl
  have huu : updateCoinWithMap m ∘ updateCoinWithMap m = updateCoinWithMap m :=
    funext hcoin
  simp only [updatePortfolio, List.map_map, huu]

/-- C9 counterexample: on Buy 3 at 10, Sell 2, Sell 1 — nonnegative
amounts and prices throughout, holdings never negative — the invested
capital computed by `processPortfolioData` is `NaN` (the second sell
clamps it to 0, the third divides by zero post-sale holdings and
multiplies the resulting Infinity by 0), so `totalInvestment >= 0` is
false. -/
theorem c9_counterexample :
    (processCoin c9coin).totalInvestment = JSNum.nan ∧
    JSNum.ge0 ((processCoin c9coin).totalInvestment) = false := by
  have hsb : ("sell" : String) ≠ "buy" := by decide
  have h : (processCoin c9coin).totalInvestment = JSNum.nan := by
    norm_num [processCoin, processTx, pStateInit, JSNum.add, JSNum.sub, JSNum.neg,
      JSNum.mul, JSNum.div, JSNum.max0, c9coin, c9txs, hsb]
  exact ⟨h, by rw [h]; rfl⟩

/-- C9 (amended): for every coin whose transactions have nonnegative
amounts and prices, the invested capital computed by
`processPortfolioData` is never a negative number: it is either a
nonnegative finite value (the `Math.max(0, ...)` clamp) or the `NaN`
produced by a sell at zero post-sale holdings with zero remaining
capital. -/
theorem c9_invested_nonneg (coin : ImpCoin)
    (h : ∀ t ∈ coin.transactions, 0 ≤ t.amount.getD 0 ∧ 0 ≤ t.price.getD 0) :
    nanOrNonneg (processCoin coin).totalInvestment := by
  have hfold : ∀ (l : List RawTx) (s : PState),
      (∀ t ∈ l, 0 ≤ t.amount.getD 0 ∧ 0 ≤ t.price.getD 0) →
      nanOrNonneg s.totalInvestment → nanOrNonneg ((l.foldl processTx s).totalInvestment) := by
    intro l
    induction l with
    | nil => intro s _ hs; simpa using hs
    | cons t ts ih =>
      intro s hl hs
      have ht := hl t (List.mem_cons_self t ts)
      have hts : ∀ x ∈ ts, 0 ≤ x.amount.getD 0 ∧ 0 ≤ x.price.getD 0 :=
        fun x hx => hl x (List.mem_cons_of_mem t hx)
      refine ih (processTx s t) hts ?_
      exact processTx_nanOrNonneg s t ht.1 ht.2 hs
  have hTI : (processCoin coin).totalInvestment =
      (coin.transactions.foldl processTx pStateInit).totalInvestment := rfl
  rw [hTI]
  exact hfold coin.transactions pStateInit h (Or.inr ⟨0, rfl, le_rfl⟩)

/-- C9 witness: the amended theorem applied to Buy 2 at 15, Sell 1 at
25. -/
theorem c9_witness : nanOrNonneg (processCoin c9wcoin).totalInvestment := by
  refine c9_invested_nonneg c9wcoin ?_
  intro t ht
  simp only [c9wcoin, List.mem_cons, List.not_mem_nil, or_false] at ht
  rcases ht with h | h <;> rw [h] <;> norm_num


/-! ## Claims C3, C5, C7, C10 -/

/-- Previously stored portfolio for the C3 counterexample: the processed
empty portfolio. -/
def c3stored : ProcPortfolio := processPortfolioData []

/-- Import payload whose only transaction is missing its `amount` field. -/
def c3payload : RawPortfolio :=
  { coins := some
      [{ id := "btc", symbol := "btc", name := "Bitcoin", image := "", logoUrl := "",
         coinGeckoId := "", currentPrice := 5,
         transactions := some
           [{ id := "t1", type := "buy", amount := none, price := some 10, date := 0 }] }] }

/-- C3 counterexample: a payload whose transaction is missing `amount`
passes the only validation (`Array.isArray(coins)`), is accepted
(`importPortfolio` returns success, the missing amount read as 0), and the
previously stored portfolio is replaced — it is not left unchanged, and no
`InvalidLedgerData` error is raised. -/
theorem c3_counterexample :
    (importPortfolioModel (some c3stored) (some c3payload) 0).1 = true ∧
    (importPortfolioModel (some c3stored) (some c3payload) 0).2 ≠ some c3stored := by
  constructor
  · rfl
  · intro h
    simp only [importPortfolioModel, c3payload, c3stored, Option.some.injEq] at h
    have hlen := congrArg (fun p => p.coins.length) h
    simp [processPortfolioData] at hlen

/-- C3 (amended): `importPortfolio` validates only that the payload exists
and that its `coins` field is an array: such payloads are always accepted
and the processed import immediately replaces the stored portfolio (a
transaction missing `amount` is processed with amount 0); only a missing
payload or a non-array `coins` field is rejected, with `false` returned —
no `InvalidLedgerData` error exists — and only in that case is the stored
portfolio left unchanged. -/
theorem c3_amended (stored : Option ProcPortfolio) (now : ℤ) (rawCoins : List RawCoin) :
    importPortfolioModel stored none now = (false, stored) ∧
    importPortfolioModel stored (some { coins := none }) now = (false, stored) ∧
    importPortfolioModel stored (some { coins := some rawCoins }) now =
      (true, some (processPortfolioData (rawCoins.map (importMapCoin now)))) :=
  ⟨rfl, rfl, rfl⟩

/-- Rate-limiter call sequence producing 15 outbound requests inside one
rolling 60-second window: one call opens the fixed window at t = 100000,
seven more arrive at t = 159000 (still inside it), and eight arrive at
t = 160001, which starts a fresh fixed window with a reset counter. -/
def c5calls : List RLCall :=
  [{ time := 100000, hasFallback := false }]
    ++ List.replicate 7 { time := 159000, hasFallback := false }
    ++ List.replicate 8 { time := 160001, hasFallback := false }

/-- C5 counterexample: the limiter is a fixed-window counter, so the
rolling 60-second window starting at t = 159000 contains 15 outbound
provider requests — the per-minute budget of 8 is exceeded. -/
theorem c5_counterexample :
    rollingCount (rlRun { requestCount := 0, requestResetTime := 0 } c5calls) 159000 = 15 ∧
    8 < rollingCount (rlRun { requestCount := 0, requestResetTime := 0 } c5calls) 159000 := by
  exact ⟨by decide, by decide⟩

/-- C5 (amended): the budget holds per fixed window, not per rolling
window: in any sequential run of `rateLimitedRequest` (without 429
responses), at most `MAX_REQUESTS_PER_MINUTE = 8` outbound requests are
counted against any one window epoch (value of `requestResetTime`); a
rolling 60-second window can span two fixed windows and see up to twice
the budget, as the counterexample shows. -/
theorem c5_fixed_window_bound (calls : List RLCall) (ep : ℤ) :
    epochCount (rlRun { requestCount := 0, requestResetTime := 0 } calls) ep ≤ 8 := by
  have h := rl_epoch_inv calls { requestCount := 0, requestResetTime := 0 } (by norm_num) ep
  omega

/-- Portfolio used to witness the C7 round trip: one coin, two
transactions. -/
def c7portfolio : ProcPortfolio :=
  processPortfolioData
    [{ id := "bitcoin", symbol := "btc", name := "Bitcoin", image := "img",
       currentPrice := 15000,
       transactions :=
         [{ id := "t1", type := "buy", amount := some 1, price := some 10000, date := 0 },
          { id := "t2", type := "sell", amount := some (2/5), price := some 12000, date := 1 }] }]

/-- Portfolio whose single coin carries the canonical provider id
`"bitcoin"` with symbol `"btc"`. -/
def c7canonPortfolio : ProcPortfolio :=
  { coins :=
      [{ id := "bitcoin", symbol := "btc", name := "Bitcoin", image := "", currentPrice := 0,
         transactions := [], holdings := 0, totalInvestment := JSNum.fin 0,
         averageBuyPrice := JSNum.fin 0, currentValue := 0, profitLoss := JSNum.fin 0,
         profitLossPercentage := JSNum.fin 0, firstBuyDate := none,
         lastTransactionDate := none }]
    totalInvestment := JSNum.fin 0, totalValue := 0, totalProfitLoss := JSNum.fin 0,
    totalProfitLossPercentage := JSNum.fin 0 }

/-- Refresh environment of the Binance top-coins path: the top-cryptos
list built from Binance pairs carries `id := baseSymbol.toLowerCase()`
(api.js line 477), here `"btc"`; the specific-id lookup finds nothing and
search is not reached. -/
def c7binanceEnv : ImportEnv :=
  { fetchOk := true
    specific := []
    topCryptos :=
      [{ id := "btc", symbol := "btc", name := "Bitcoin", image := "",
         current_price := 20000 }]
    search := fun _ => [] }

/-- Refresh environment in which the initial provider fetch of the
refresh phase fails, so the initially processed portfolio is kept. -/
def c7failEnv : ImportEnv :=
  { fetchOk := false, specific := [], topCryptos := [], search := fun _ => [] }

/-- C7 counterexample: exporting and re-importing a portfolio whose coin
has the canonical id `"bitcoin"` does not reproduce the same position set
when the refresh phase succeeds with Binance-sourced top-coins data — the
symbol match at usePortfolio.js lines 339-360 rewrites the id to the
provider's id (`"btc"`), and the re-keyed portfolio is what gets saved. -/
theorem c7_counterexample :
    ((importPortfolioFull none (some (exportPortfolioModel c7canonPortfolio)) 0
          c7binanceEnv).2.map (fun p2 => p2.coins.map (fun c => c.id)))
      ≠ some (c7canonPortfolio.coins.map (fun c => c.id)) := by
  decide

/-- C7 (amended): importing the export of a stored portfolio always
reproduces the symbols and the per-coin transactions — no phase of
`importPortfolio` touches them — and it reproduces the coin ids whenever
the ids are nonempty and the network-refresh phase does not re-key them
from provider data, in particular whenever that phase's fetch fails; a
provider match rewrites a coin's id to the provider's canonical id (the
counterexample re-keys `"bitcoin"` to the Binance-path id `"btc"`), and an
empty id is already re-keyed to `symbol-Date.now()` by the initial
normalisation map.  Derived fields are recomputed by
`processPortfolioData`. -/
theorem c7_roundtrip (p : ProcPortfolio) (stored : Option ProcPortfolio) (now : ℤ)
    (env : ImportEnv) :
    (importPortfolioFull stored (some (exportPortfolioModel p)) now env).1 = true ∧
    ∃ p2 : ProcPortfolio,
      (importPortfolioFull stored (some (exportPortfolioModel p)) now env).2 = some p2 ∧
      p2.coins.map (fun c => (c.symbol, c.transactions))
        = p.coins.map (fun c => (c.symbol, c.transactions)) ∧
      (env.fetchOk = false → (∀ c ∈ p.coins, c.id ≠ "") →
        p2.coins.map (fun c => (c.id, c.symbol, c.transactions))
          = p.coins.map (fun c => (c.id, c.symbol, c.transactions))) := by
  have hskel0 :
      (processPortfolioData
          (((p.coins.map exportCoin).map (importMapCoinFull now)).map MCoin.toImp)).coins.map
        (fun c => (c.symbol, c.transactions))
        = p.coins.map (fun c => (c.symbol, c.transactions)) :=
    (procChain_skeleton ((p.coins.map exportCoin).map (importMapCoinFull now))).trans
      (exportImport_skeleton now p.coins)
  have hid0 : (∀ c ∈ p.coins, c.id ≠ "") →
      (processPortfolioData
          (((p.coins.map exportCoin).map (importMapCoinFull now)).map MCoin.toImp)).coins.map
        (fun c => (c.id, c.symbol, c.transactions))
        = p.coins.map (fun c => (c.id, c.symbol, c.transactions)) := by
    intro hids
    have e := exportImportFull_toImp now p.coins
    rw [show (processPortfolioData
          (((p.coins.map exportCoin).map (importMapCoinFull now)).map MCoin.toImp)).coins
        = (((p.coins.map exportCoin).map (importMapCoinFull now)).map MCoin.toImp).map
            processCoin from rfl, e]
    exact exportImport_triple now p.coins hids
  have hskelB :
      (processPortfolioData
          ((refreshPhase ((p.coins.map exportCoin).map (importMapCoinFull now)) env).1.map
            MCoin.toImp)).coins.map (fun c => (c.symbol, c.transactions))
        = p.coins.map (fun c => (c.symbol, c.transactions)) :=
    (procChain_skeleton _).trans
      ((refreshPhase_skeleton ((p.coins.map exportCoin).map (importMapCoinFull now)) env).trans
        (exportImport_skeleton now p.coins))
  simp only [importPortfolioFull, exportPortfolioModel]
  split_ifs with h1 h2 h3
  · exact ⟨rfl, _, rfl, hskel0, fun _ hids => hid0 hids⟩
  · refine ⟨rfl, _, rfl, hskelB, fun hfalse _ => ?_⟩
    rw [hfalse] at h2
    exact absurd h2 (by simp)
  · exact ⟨rfl, _, rfl, hskel0, fun _ hids => hid0 hids⟩
  · exact ⟨rfl, _, rfl, hskel0, fun _ hids => hid0 hids⟩

/-- C7 witness: the round-trip theorem applied to a one-coin portfolio
and a failing refresh fetch — symbols, transactions and ids are all
reproduced. -/
theorem c7_witness :
    ∃ p2 : ProcPortfolio,
      (importPortfolioFull none (some (exportPortfolioModel c7portfolio)) 0 c7failEnv).2
        = some p2 ∧
      p2.coins.map (fun c => (c.symbol, c.transactions))
        = c7portfolio.coins.map (fun c => (c.symbol, c.transactions)) ∧
      p2.coins.map (fun c => (c.id, c.symbol, c.transactions))
        = c7portfolio.coins.map (fun c => (c.id, c.symbol, c.transactions)) := by
  obtain ⟨-, p2, hp2, hskel, hcond⟩ := c7_roundtrip c7portfolio none 0 c7failEnv
  refine ⟨p2, hp2, hskel, hcond rfl ?_⟩
  intro c hc
  simp only [c7portfolio, processPortfolioData, List.map_cons, List.map_nil,
    List.mem_cons, List.not_mem_nil, or_false] at hc
  rw [hc]
  simp [processCoin_id]

/-- Environment in which every provider lookup fails: the Binance helpers
return `null` (their internal catch), the CoinGecko endpoints throw, and
the top-coins cache is empty (it is only populated by successful
fetches). -/
def c10deadEnv : SearchEnv :=
  { binanceTicker := none
    binancePrice := fun _ => none
    topCoinsCache := none
    geckoSearch := Except.error ()
    geckoMarkets := Except.error ()
    geckoContract := Except.error () }

/-- C10: a query that is empty or whitespace-only returns `[]` with zero
provider requests, and for every query, when every provider lookup fails
(and hence the top-coins cache, populated only by successful lookups, is
empty) the search returns `[]` instead of propagating the failure. -/
theorem c10_search_guarded (env : SearchEnv) (query : String) :
    (jsTrim query = "" → searchCryptocurrencies env query = ([], 0)) ∧
    (env.binanceTicker = none → env.topCoinsCache = none →
      env.geckoSearch = Except.error () → env.geckoMarkets = Except.error () →
      env.geckoContract = Except.error () →
      (searchCryptocurrencies env query).1 = []) := by
  constructor
  · intro h
    simp [searchCryptocurrencies, h]
  · intro h1 h2 h3 h4 h5
    by_cases ht : jsTrim query = ""
    · simp [searchCryptocurrencies, ht]
    · by_cases hca : isContractAddress query = true
      · simp [searchCryptocurrencies, searchContractAddress, ht, hca, h5]
      · simp [searchCryptocurrencies, searchBinanceSymbols, searchMainTail,
          searchGeckoTail, ht, hca, h1, h2, h3]

/-- C10 witness: the theorem applied to the all-failures environment with
a whitespace query and with a plain query. -/
theorem c10_witness :
    searchCryptocurrencies c10deadEnv "   " = ([], 0) ∧
    (searchCryptocurrencies c10deadEnv "btc").1 = [] := by
  constructor
  · exact (c10_search_guarded c10deadEnv "   ").1 (by decide)
  · exact (c10_search_guarded c10deadEnv "btc").2 rfl rfl rfl rfl rfl

end CoinCost
